import Mathlib

/-!
Verification development for the ERP point-of-sale repository.

Money and quantities are modelled as exact rationals (`ℚ`): the business
logic of the source manipulates plain JavaScript numbers, and every constant
it mentions (0.05, 0.001, 0.94, 6, 100) is an exact decimal, so `ℚ` is the
faithful exact-arithmetic reading of the computation.  The hosted record
store (products and sales tables) is modelled as an explicit state `DB`
threaded through the lifecycle operations, so that an operation that throws
mid-way leaves behind exactly the writes it issued before throwing — the
source performs sequential per-item writes with no rollback.
-/

namespace ERP

/-- Sale status enum, from `types.ts` (`SaleStatus`). -/
inductive SaleStatus where
  | PENDING
  | COMPLETED
  | CANCELLED
  | BUDGET
deriving DecidableEq, Repr

/-- Line item embedded in a sale, from `types.ts` (`SaleItem`).  Fields not
used by the business logic (denormalised code/unit/observation) are omitted. -/
structure SaleItem where
  productId : Nat
  productName : String
  quantity : ℚ
  unitPrice : ℚ
  originalPrice : ℚ
  total : ℚ
deriving DecidableEq, Repr

/-- Product record, from `types.ts` (`Product`); fields the lifecycle logic
reads (`id`, `name`, `price`, `stock`). -/
structure Product where
  id : Nat
  name : String
  price : ℚ
  stock : ℚ
deriving DecidableEq, Repr

/-- Sale record, from `types.ts` (`Sale`); the fields the lifecycle
operations read or write. -/
structure Sale where
  id : Nat
  items : List SaleItem
  totalValue : ℚ
  status : SaleStatus
  discount : ℚ
  cashierId : Option String
  cashierName : Option String
  finishedAt : Option String
deriving DecidableEq, Repr

/-- The record store: the `sales` and `products` tables. -/
structure DB where
  sales : List Sale
  products : List Product
deriving DecidableEq, Repr

/-- Errors thrown by the lifecycle operations in `services` (the thrown
`Error` messages, as structured data). -/
inductive SaleError where
  | NotFound
  | AlreadyCompleted
  | ProductNotFound (productName : String)
  | InsufficientStock (productName : String) (available : ℚ)
deriving DecidableEq, Repr

/-- `supabase.from('sales').select('*').eq('id', saleId).single()`. -/
def findSale (db : DB) (saleId : Nat) : Option Sale :=
  db.sales.find? (fun s => s.id == saleId)

/-- `supabase.from('products').select(...).eq('id', pid).single()`. -/
def findProduct (ps : List Product) (pid : Nat) : Option Product :=
  ps.find? (fun p => p.id == pid)

/-- `supabase.from('products').update({ stock: v }).eq('id', pid)`. -/
def updateStock (ps : List Product) (pid : Nat) (v : ℚ) : List Product :=
  ps.map (fun p => if p.id == pid then { p with stock := v } else p)

/-- `supabase.from('sales').update(...).eq('id', s.id)`: replace the row
with the given id by the updated row. -/
def setSale (sales : List Sale) (s : Sale) : List Sale :=
  sales.map (fun x => if x.id == s.id then s else x)

/-- `sale.items.reduce((acc, item) => acc + item.total, 0)`. -/
def itemsSubtotal (items : List SaleItem) : ℚ :=
  items.foldl (fun acc item => acc + item.total) 0

/-- Step 2 of `completeSale`: the global-discount redistribution.  Returns
the final items and the final discount (`finalItems`, `finalDiscount`).
`sale.discount && sale.discount > 0` on a number is `0 < sale.discount`. -/
def redistributeItems (sale : Sale) : List SaleItem × ℚ :=
  if 0 < sale.discount then
    if 0 < itemsSubtotal sale.items then
      (sale.items.map (fun item =>
        { item with
          unitPrice := item.unitPrice *
            ((itemsSubtotal sale.items - sale.discount) / itemsSubtotal sale.items)
          total := item.unitPrice *
            ((itemsSubtotal sale.items - sale.discount) / itemsSubtotal sale.items) *
            item.quantity }), 0)
    else (sale.items, sale.discount)
  else (sale.items, sale.discount)

/-- Step 3 of `completeSale`: the sequential per-item stock validation and
decrement loop.  On failure it returns the error together with the product
table as mutated so far — earlier iterations' decrements are kept, the
failing item is not decremented. -/
def stockLoop : List SaleItem → List Product → Option SaleError × List Product
  | [], ps => (none, ps)
  | item :: rest, ps =>
    match findProduct ps item.productId with
    | none => (some (SaleError.ProductNotFound item.productName), ps)
    | some prod =>
      if prod.stock < item.quantity then
        (some (SaleError.InsufficientStock prod.name prod.stock), ps)
      else
        stockLoop rest (updateStock ps item.productId (prod.stock - item.quantity))

/-- Step 4 of `completeSale`: the field updates written to the sale row. -/
def finalizedSale (sale : Sale) (cashierId cashierName nowIso : String) : Sale :=
  { sale with
    status := SaleStatus.COMPLETED
    cashierId := some cashierId
    cashierName := some cashierName
    finishedAt := some nowIso
    items := (redistributeItems sale).1
    discount := (redistributeItems sale).2 }

/-- `completeSale` from the services module: fetch the sale, reject if
already completed, redistribute a positive global discount, run the
sequential stock loop, then finalize the sale row.  The returned `DB` is
the record store after the operation, including partial writes on error. -/
def completeSale (db : DB) (saleId : Nat) (cashierId cashierName nowIso : String) :
    Except SaleError Sale × DB :=
  match findSale db saleId with
  | none => (Except.error SaleError.NotFound, db)
  | some sale =>
    if sale.status = SaleStatus.COMPLETED then
      (Except.error SaleError.AlreadyCompleted, db)
    else
      match stockLoop (redistributeItems sale).1 db.products with
      | (some e, ps) => (Except.error e, { db with products := ps })
      | (none, ps) =>
        (Except.ok (finalizedSale sale cashierId cashierName nowIso),
         { sales := setSale db.sales (finalizedSale sale cashierId cashierName nowIso),
           products := ps })

/-- The stock-restoration loop of `cancelSale`: for each item of a completed
sale, re-read the product and increment its stock; a missing product is
silently skipped. -/
def restoreLoop : List SaleItem → List Product → List Product
  | [], ps => ps
  | item :: rest, ps =>
    match findProduct ps item.productId with
    | none => restoreLoop rest ps
    | some prod => restoreLoop rest (updateStock ps item.productId (prod.stock + item.quantity))

/-- `cancelSale` from the services module: fetch the sale; if it was
`COMPLETED`, restore stock item by item; then set the status to `CANCELLED`
unconditionally. -/
def cancelSale (db : DB) (saleId : Nat) : Except SaleError Sale × DB :=
  match findSale db saleId with
  | none => (Except.error SaleError.NotFound, db)
  | some sale =>
    (Except.ok { sale with status := SaleStatus.CANCELLED },
     { sales := setSale db.sales { sale with status := SaleStatus.CANCELLED },
       products :=
         if sale.status = SaleStatus.COMPLETED then restoreLoop sale.items db.products
         else db.products })

/-! ### Helper lemmas about the lifecycle operations -/

lemma redistributeItems_of_pos (sale : Sale) (hd : 0 < sale.discount)
    (hs : 0 < itemsSubtotal sale.items) :
    redistributeItems sale =
      (sale.items.map (fun item =>
        { item with
          unitPrice := item.unitPrice *
            ((itemsSubtotal sale.items - sale.discount) / itemsSubtotal sale.items)
          total := item.unitPrice *
            ((itemsSubtotal sale.items - sale.discount) / itemsSubtotal sale.items) *
            item.quantity }), 0) := by
  simp [redistributeItems, hd, hs]

lemma redistributeItems_of_zero_subtotal (sale : Sale)
    (hs : itemsSubtotal sale.items = 0) :
    redistributeItems sale = (sale.items, sale.discount) := by
  unfold redistributeItems
  rw [hs]
  simp

lemma stockLoop_error_shape : ∀ (items : List SaleItem) (ps : List Product)
    (e : SaleError) (ps' : List Product), stockLoop items ps = (some e, ps') →
    (∃ n, e = SaleError.ProductNotFound n) ∨
    (∃ n a, e = SaleError.InsufficientStock n a) := by
  intro items
  induction items with
  | nil => intro ps e ps' h; simp [stockLoop] at h
  | cons item rest ih =>
    intro ps e ps' h
    rw [stockLoop] at h
    rcases hf : findProduct ps item.productId with _ | prod
    · rw [hf] at h
      simp only [Prod.mk.injEq, Option.some.injEq] at h
      exact Or.inl ⟨_, h.1.symm⟩
    · rw [hf] at h
      by_cases hq : prod.stock < item.quantity
      · simp only [if_pos hq, Prod.mk.injEq, Option.some.injEq] at h
        exact Or.inr ⟨_, _, h.1.symm⟩
      · simp only [if_neg hq] at h
        exact ih _ _ _ h

/-! ### Concrete fixtures used by witnesses and counterexamples -/

/-- A pending sale with one item (2 × price 10) and a global discount of 2. -/
def witSale : Sale :=
  { id := 1
    items := [{ productId := 1, productName := "A", quantity := 2, unitPrice := 10,
                originalPrice := 10, total := 20 }]
    totalValue := 18, status := SaleStatus.PENDING, discount := 2
    cashierId := none, cashierName := none, finishedAt := none }

def witDb : DB :=
  { sales := [witSale], products := [{ id := 1, name := "A", price := 10, stock := 5 }] }

/-- A cancelled sale with no items. -/
def cancelledSale : Sale :=
  { id := 2, items := [], totalValue := 0, status := SaleStatus.CANCELLED, discount := 0
    cashierId := none, cashierName := none, finishedAt := none }

def dbCancelled : DB := { sales := [cancelledSale], products := [] }

/-! ### C1: discount redistribution at completion -/

/-- The property C1 states of `completeSale` at a loaded sale: an already
completed sale is rejected without mutation; with a positive discount and a
positive item subtotal, a successful completion scales every unit price by
`(S - D) / S`, recomputes totals and zeroes the stored discount; with a zero
subtotal the redistribution is skipped. -/
def completionDiscountSpec (db : DB) (saleId : Nat) (sale : Sale)
    (cid cn nowIso : String) : Prop :=
  (sale.status = SaleStatus.COMPLETED →
    completeSale db saleId cid cn nowIso = (Except.error SaleError.AlreadyCompleted, db))
  ∧ (0 < sale.discount → 0 < itemsSubtotal sale.items →
      ∀ s', (completeSale db saleId cid cn nowIso).1 = Except.ok s' →
        s'.discount = 0 ∧
        s'.items = sale.items.map (fun item =>
          { item with
            unitPrice := item.unitPrice *
              ((itemsSubtotal sale.items - sale.discount) / itemsSubtotal sale.items)
            total := item.unitPrice *
              ((itemsSubtotal sale.items - sale.discount) / itemsSubtotal sale.items) *
              item.quantity }))
  ∧ (0 < sale.discount → itemsSubtotal sale.items = 0 →
      ∀ s', (completeSale db saleId cid cn nowIso).1 = Except.ok s' →
        s'.items = sale.items ∧ s'.discount = sale.discount)

/-- C1: for every sale loaded by `completeSale` with global discount `D > 0`
and item subtotal `S > 0`, completion scales every item's unit price by
`(S - D) / S`, recomputes each item's total as the scaled unit price times
its quantity, and stores discount 0; if `S = 0` the redistribution is
skipped; and `completeSale` on an already `COMPLETED` sale fails with
`AlreadyCompleted` leaving the store untouched, so items are never
double-discounted. -/
theorem completeSale_discount_redistribution (db : DB) (saleId : Nat) (sale : Sale)
    (cid cn nowIso : String) (hfind : findSale db saleId = some sale) :
    completionDiscountSpec db saleId sale cid cn nowIso := by
  refine ⟨?_, ?_, ?_⟩
  · intro hst
    simp [completeSale, hfind, hst]
  · intro hd hs s' hok
    by_cases hst : sale.status = SaleStatus.COMPLETED
    · simp [completeSale, hfind, hst] at hok
    · rcases h2 : stockLoop (redistributeItems sale).1 db.products with ⟨e, ps⟩
      cases e with
      | some err => simp [completeSale, hfind, hst, h2] at hok
      | none =>
        simp only [completeSale, hfind, hst, if_false, h2] at hok
        simp only [Except.ok.injEq] at hok
        subst hok
        constructor
        · simp [finalizedSale, redistributeItems_of_pos sale hd hs]
        · simp [finalizedSale, redistributeItems_of_pos sale hd hs]
  · intro hd hs s' hok
    by_cases hst : sale.status = SaleStatus.COMPLETED
    · simp [completeSale, hfind, hst] at hok
    · rcases h2 : stockLoop (redistributeItems sale).1 db.products with ⟨e, ps⟩
      cases e with
      | some err => simp [completeSale, hfind, hst, h2] at hok
      | none =>
        simp only [completeSale, hfind, hst, if_false, h2] at hok
        simp only [Except.ok.injEq] at hok
        subst hok
        constructor
        · simp [finalizedSale, redistributeItems_of_zero_subtotal sale hs]
        · simp [finalizedSale, redistributeItems_of_zero_subtotal sale hs]

theorem completeSale_discount_redistribution_witness :
    findSale witDb 1 = some witSale ∧
    completionDiscountSpec witDb 1 witSale "c" "C" "t" :=
  ⟨by decide, completeSale_discount_redistribution witDb 1 witSale "c" "C" "t" (by decide)⟩

/-! ### C2: is Cancelled terminal? -/

/-- C2 counterexample: `completeSale` guards only against `COMPLETED`, so a
`CANCELLED` sale (here with an empty item list, so the stock loop trivially
succeeds) is completed: the operation returns `ok` and the stored sale's
status becomes `COMPLETED`, contradicting "once Cancelled, no operation ever
transitions it to any other status". -/
theorem cancelled_sale_completes_counterexample :
    cancelledSale.status = SaleStatus.CANCELLED ∧
    (completeSale dbCancelled 2 "c" "C" "t").1 =
      Except.ok (finalizedSale cancelledSale "c" "C" "t") ∧
    (finalizedSale cancelledSale "c" "C" "t").status = SaleStatus.COMPLETED ∧
    findSale (completeSale dbCancelled 2 "c" "C" "t").2 2 =
      some (finalizedSale cancelledSale "c" "C" "t") :=
  ⟨rfl, rfl, rfl, rfl⟩

/-- C2 amended: for a loaded `CANCELLED` sale, `cancelSale` keeps the status
`CANCELLED`; but `completeSale` rejects only `COMPLETED` sales — it never
fails with `AlreadyCompleted` on a cancelled sale, and whenever its stock
loop succeeds the cancelled sale transitions to `COMPLETED`. -/
theorem cancelled_terminal_amended (db : DB) (saleId : Nat) (sale : Sale)
    (cid cn nowIso : String) (hfind : findSale db saleId = some sale)
    (hc : sale.status = SaleStatus.CANCELLED) :
    ((cancelSale db saleId).1 = Except.ok { sale with status := SaleStatus.CANCELLED } ∧
      ({ sale with status := SaleStatus.CANCELLED } : Sale).status = SaleStatus.CANCELLED) ∧
    (∀ s', (completeSale db saleId cid cn nowIso).1 = Except.ok s' →
      s'.status = SaleStatus.COMPLETED) ∧
    (completeSale db saleId cid cn nowIso).1 ≠ Except.error SaleError.AlreadyCompleted := by
  have hst : sale.status ≠ SaleStatus.COMPLETED := by rw [hc]; intro h; cases h
  refine ⟨⟨by simp [cancelSale, hfind], rfl⟩, ?_, ?_⟩
  · intro s' hok
    rcases h2 : stockLoop (redistributeItems sale).1 db.products with ⟨e, ps⟩
    cases e with
    | some err => simp [completeSale, hfind, hst, h2] at hok
    | none =>
      simp only [completeSale, hfind, hst, if_false, h2] at hok
      simp only [Except.ok.injEq] at hok
      subst hok
      rfl
  · rcases h2 : stockLoop (redistributeItems sale).1 db.products with ⟨e, ps⟩
    cases e with
    | some err =>
      simp only [completeSale, hfind, hst, if_false, h2, ne_eq, Except.error.injEq]
      rcases stockLoop_error_shape _ _ _ _ h2 with ⟨n, rfl⟩ | ⟨n, a, rfl⟩ <;> simp
    | none =>
      simp [completeSale, hfind, hst, h2]

theorem cancelled_terminal_amended_witness :
    (findSale dbCancelled 2 = some cancelledSale ∧
      cancelledSale.status = SaleStatus.CANCELLED) ∧
    (((cancelSale dbCancelled 2).1 =
        Except.ok { cancelledSale with status := SaleStatus.CANCELLED } ∧
      ({ cancelledSale with status := SaleStatus.CANCELLED } : Sale).status =
        SaleStatus.CANCELLED) ∧
    (∀ s', (completeSale dbCancelled 2 "c" "C" "t").1 = Except.ok s' →
      s'.status = SaleStatus.COMPLETED) ∧
    (completeSale dbCancelled 2 "c" "C" "t").1 ≠ Except.error SaleError.AlreadyCompleted) :=
  ⟨⟨rfl, rfl⟩, cancelled_terminal_amended dbCancelled 2 cancelledSale "c" "C" "t" rfl rfl⟩

/-! ### C3: sequential stock loop, partial application on failure -/

lemma stockLoop_append_ok (l1 : List SaleItem) (l2 : List SaleItem)
    (ps ps' : List Product) (h : stockLoop l1 ps = (none, ps')) :
    stockLoop (l1 ++ l2) ps = stockLoop l2 ps' := by
  induction l1 generalizing ps with
  | nil =>
    rw [stockLoop] at h
    cases h
    rfl
  | cons item rest ih =>
    rw [List.cons_append, stockLoop]
    rw [stockLoop] at h
    rcases hf : findProduct ps item.productId with _ | prod
    · rw [hf] at h
      cases h
    · rw [hf] at h
      by_cases hq : prod.stock < item.quantity
      · simp only [if_pos hq] at h
        cases h
      · simp only [if_neg hq] at h ⊢
        exact ih _ h

/-- C3: in `completeSale`'s per-item stock loop, once the items before a
given item have been processed successfully (producing product table `ps'`,
which keeps their decrements), a missing product makes the whole operation
fail with `ProductNotFound`, and a re-read stock below the item's quantity
makes it fail with `InsufficientStock` naming the product and its available
stock — in both cases the store is left at `ps'`: earlier decrements are
kept, the failing item is not decremented, and nothing is rolled back. -/
theorem completeSale_stock_loop_failure (db : DB) (saleId : Nat) (sale : Sale)
    (cid cn nowIso : String) (pre : List SaleItem) (item : SaleItem)
    (rest : List SaleItem) (ps' : List Product)
    (hfind : findSale db saleId = some sale)
    (hst : sale.status ≠ SaleStatus.COMPLETED)
    (hitems : (redistributeItems sale).1 = pre ++ item :: rest)
    (hpre : stockLoop pre db.products = (none, ps')) :
    (findProduct ps' item.productId = none →
      completeSale db saleId cid cn nowIso =
        (Except.error (SaleError.ProductNotFound item.productName),
         { db with products := ps' }))
    ∧ (∀ prod, findProduct ps' item.productId = some prod →
        prod.stock < item.quantity →
      completeSale db saleId cid cn nowIso =
        (Except.error (SaleError.InsufficientStock prod.name prod.stock),
         { db with products := ps' })) := by
  have hloop : stockLoop (redistributeItems sale).1 db.products =
      stockLoop (item :: rest) ps' := by
    rw [hitems]
    exact stockLoop_append_ok pre _ db.products ps' hpre
  constructor
  · intro hnone
    have h2 : stockLoop (item :: rest) ps' =
        (some (SaleError.ProductNotFound item.productName), ps') := by
      rw [stockLoop, hnone]
    simp [completeSale, hfind, hst, hloop, h2]
  · intro prod hsome hq
    have h2 : stockLoop (item :: rest) ps' =
        (some (SaleError.InsufficientStock prod.name prod.stock), ps') := by
      rw [stockLoop, hsome]
      simp [if_pos hq]
    simp [completeSale, hfind, hst, hloop, h2]

/-- First line of the two-item fixture sale: 2 units of product 1. -/
def itemA4 : SaleItem :=
  { productId := 1, productName := "A", quantity := 2, unitPrice := 10,
    originalPrice := 10, total := 20 }

/-- Second line of the two-item fixture sale: 5 units of product 2, more
than its stock of 3. -/
def itemB4 : SaleItem :=
  { productId := 2, productName := "B", quantity := 5, unitPrice := 7,
    originalPrice := 7, total := 35 }

/-- A pending two-item sale whose second item exceeds the available stock. -/
def twoItemSale : Sale :=
  { id := 4, items := [itemA4, itemB4]
    totalValue := 55, status := SaleStatus.PENDING, discount := 0
    cashierId := none, cashierName := none, finishedAt := none }

def dbTwoItems : DB :=
  { sales := [twoItemSale]
    products := [{ id := 1, name := "A", price := 10, stock := 5 },
                 { id := 2, name := "B", price := 7, stock := 3 }] }

/-- The product table after the first item of `twoItemSale` is decremented. -/
def midLoopProducts : List Product :=
  [{ id := 1, name := "A", price := 10, stock := 3 },
   { id := 2, name := "B", price := 7, stock := 3 }]

theorem completeSale_stock_loop_failure_witness :
    (findSale dbTwoItems 4 = some twoItemSale ∧
     twoItemSale.status ≠ SaleStatus.COMPLETED ∧
     (redistributeItems twoItemSale).1 = [itemA4] ++ itemB4 :: [] ∧
     stockLoop [itemA4] dbTwoItems.products = (none, midLoopProducts)) ∧
    ((findProduct midLoopProducts itemB4.productId = none →
      completeSale dbTwoItems 4 "c" "C" "t" =
        (Except.error (SaleError.ProductNotFound itemB4.productName),
         { dbTwoItems with products := midLoopProducts }))
    ∧ (∀ prod,
        findProduct midLoopProducts itemB4.productId = some prod →
        prod.stock < itemB4.quantity →
      completeSale dbTwoItems 4 "c" "C" "t" =
        (Except.error (SaleError.InsufficientStock prod.name prod.stock),
         { dbTwoItems with products := midLoopProducts }))) :=
  ⟨⟨by decide, by decide,
    by norm_num [redistributeItems, twoItemSale],
    by norm_num [stockLoop, findProduct, updateStock, dbTwoItems, midLoopProducts,
                 itemA4, List.find?_cons]⟩,
   completeSale_stock_loop_failure dbTwoItems 4 twoItemSale "c" "C" "t"
     [itemA4] itemB4 [] midLoopProducts
     (by decide) (by decide)
     (by norm_num [redistributeItems, twoItemSale])
     (by norm_num [stockLoop, findProduct, updateStock, dbTwoItems, midLoopProducts,
                   itemA4, List.find?_cons])⟩

/-! ### C4: cancellation restores stock only for completed sales -/

/-- Stock of the product a given id resolves to (the first row with that
id), if any. -/
def stockOf (ps : List Product) (pid : Nat) : Option ℚ :=
  (findProduct ps pid).map Product.stock

/-- Total quantity over a sale's items referencing a given product id. -/
def totalQty (items : List SaleItem) (pid : Nat) : ℚ :=
  ((items.filter (fun it => it.productId == pid)).map SaleItem.quantity).sum

lemma findProduct_cons_pos (p : Product) (ps : List Product) (pid : Nat)
    (h : (p.id == pid) = true) :
    findProduct (p :: ps) pid = some p := by
  simp only [findProduct, List.find?_cons, h]

lemma findProduct_cons_neg (p : Product) (ps : List Product) (pid : Nat)
    (h : (p.id == pid) = false) :
    findProduct (p :: ps) pid = findProduct ps pid := by
  simp only [findProduct, List.find?_cons, h]

lemma updateStock_cons_pos (p : Product) (ps : List Product) (pid : Nat) (v : ℚ)
    (h : (p.id == pid) = true) :
    updateStock (p :: ps) pid v = { p with stock := v } :: updateStock ps pid v := by
  simp only [updateStock, List.map_cons, if_pos h]

lemma updateStock_cons_neg (p : Product) (ps : List Product) (pid : Nat) (v : ℚ)
    (h : (p.id == pid) = false) :
    updateStock (p :: ps) pid v = p :: updateStock ps pid v := by
  simp only [updateStock, List.map_cons, h, Bool.false_eq_true, if_false]

lemma stockOf_updateStock_self (ps : List Product) (pid : Nat) (v : ℚ) (prod : Product)
    (h : findProduct ps pid = some prod) :
    stockOf (updateStock ps pid v) pid = some v := by
  induction ps with
  | nil => cases h
  | cons p ps ih =>
    by_cases hp : (p.id == pid) = true
    · rw [stockOf, updateStock_cons_pos p ps pid v hp,
          findProduct_cons_pos { p with stock := v } (updateStock ps pid v) pid hp]
      rfl
    · have hp' : (p.id == pid) = false := by
        cases hb : (p.id == pid)
        · rfl
        · exact absurd hb hp
      rw [findProduct_cons_neg p ps pid hp'] at h
      rw [stockOf, updateStock_cons_neg p ps pid v hp',
          findProduct_cons_neg p (updateStock ps pid v) pid hp']
      exact ih h

lemma stockOf_updateStock_other (ps : List Product) (pid : Nat) (v : ℚ) (pid' : Nat)
    (h : pid' ≠ pid) :
    stockOf (updateStock ps pid v) pid' = stockOf ps pid' := by
  induction ps with
  | nil => rfl
  | cons p ps ih =>
    by_cases hq : (p.id == pid) = true
    · have hp : (p.id == pid') = false := by
        have h1 : p.id = pid := by simpa using hq
        simp only [h1, beq_eq_false_iff_ne, ne_eq]
        intro hcon
        exact h hcon.symm
      rw [stockOf, stockOf, updateStock_cons_pos p ps pid v hq,
          findProduct_cons_neg { p with stock := v } (updateStock ps pid v) pid' hp,
          findProduct_cons_neg p ps pid' hp]
      exact ih
    · have hq' : (p.id == pid) = false := by
        cases hb : (p.id == pid)
        · rfl
        · exact absurd hb hq
      rw [stockOf, stockOf, updateStock_cons_neg p ps pid v hq']
      by_cases hp : (p.id == pid') = true
      · rw [findProduct_cons_pos p (updateStock ps pid v) pid' hp,
            findProduct_cons_pos p ps pid' hp]
      · have hp' : (p.id == pid') = false := by
          cases hb : (p.id == pid')
          · rfl
          · exact absurd hb hp
        rw [findProduct_cons_neg p (updateStock ps pid v) pid' hp',
            findProduct_cons_neg p ps pid' hp']
        exact ih

lemma totalQty_nil (pid : Nat) : totalQty [] pid = 0 := rfl

lemma totalQty_cons_self (it : SaleItem) (rest : List SaleItem) (pid : Nat)
    (h : it.productId = pid) :
    totalQty (it :: rest) pid = it.quantity + totalQty rest pid := by
  simp [totalQty, List.filter_cons, h]

lemma totalQty_cons_other (it : SaleItem) (rest : List SaleItem) (pid : Nat)
    (h : it.productId ≠ pid) :
    totalQty (it :: rest) pid = totalQty rest pid := by
  simp [totalQty, List.filter_cons, h]

lemma stockOf_restoreLoop : ∀ (items : List SaleItem) (ps : List Product) (pid : Nat),
    stockOf (restoreLoop items ps) pid =
      (stockOf ps pid).map (fun s => s + totalQty items pid) := by
  intro items
  induction items with
  | nil =>
    intro ps pid
    rcases h : stockOf ps pid with _ | s <;> simp [restoreLoop, h, totalQty_nil]
  | cons it rest ih =>
    intro ps pid
    rw [restoreLoop]
    rcases hf : findProduct ps it.productId with _ | prod
    · rw [ih]
      by_cases hpid : it.productId = pid
      · have hnone : stockOf ps pid = none := by
          rw [stockOf, ← hpid, hf]
          rfl
        simp [hnone]
      · rw [totalQty_cons_other it rest pid hpid]
    · rw [ih]
      by_cases hpid : it.productId = pid
      · subst hpid
        rw [stockOf_updateStock_self ps it.productId _ prod hf,
            totalQty_cons_self it rest it.productId rfl]
        have hs : stockOf ps it.productId = some prod.stock := by
          rw [stockOf, hf]
          rfl
        rw [hs]
        simp only [Option.map_some']
        rw [add_assoc]
      · rw [stockOf_updateStock_other ps it.productId _ pid (Ne.symm hpid),
            totalQty_cons_other it rest pid hpid]

lemma find?Sale_cons_pos (s : Sale) (ss : List Sale) (sid : Nat)
    (h : (s.id == sid) = true) :
    List.find? (fun x => x.id == sid) (s :: ss) = some s := by
  simp only [List.find?_cons, h]

lemma find?Sale_cons_neg (s : Sale) (ss : List Sale) (sid : Nat)
    (h : (s.id == sid) = false) :
    List.find? (fun x => x.id == sid) (s :: ss) =
      List.find? (fun x => x.id == sid) ss := by
  simp only [List.find?_cons, h]

lemma setSale_cons_pos (s : Sale) (ss : List Sale) (u : Sale)
    (h : (s.id == u.id) = true) :
    setSale (s :: ss) u = u :: setSale ss u := by
  simp only [setSale, List.map_cons, if_pos h]

lemma setSale_cons_neg (s : Sale) (ss : List Sale) (u : Sale)
    (h : (s.id == u.id) = false) :
    setSale (s :: ss) u = s :: setSale ss u := by
  simp only [setSale, List.map_cons, h, Bool.false_eq_true, if_false]

lemma find?_setSale (sales : List Sale) (saleId : Nat) (u : Sale)
    (hid : (u.id == saleId) = true) :
    ∀ sale, sales.find? (fun s => s.id == saleId) = some sale →
      (setSale sales u).find? (fun s => s.id == saleId) = some u := by
  induction sales with
  | nil => intro sale h; cases h
  | cons s ss ih =>
    intro sale h
    by_cases hp : (s.id == saleId) = true
    · have hsu : (s.id == u.id) = true := by
        simp only [beq_iff_eq] at hp hid ⊢
        rw [hp, hid]
      rw [setSale_cons_pos s ss u hsu, find?Sale_cons_pos u (setSale ss u) saleId hid]
    · have hp' : (s.id == saleId) = false := by
        cases hb : (s.id == saleId)
        · rfl
        · exact absurd hb hp
      rw [find?Sale_cons_neg s ss saleId hp'] at h
      have hne : s.id ≠ saleId := by simpa using hp'
      have hu : u.id = saleId := by simpa using hid
      have hsu : (s.id == u.id) = false := by
        simp only [beq_eq_false_iff_ne, ne_eq, hu]
        exact hne
      rw [setSale_cons_neg s ss u hsu, find?Sale_cons_neg s (setSale ss u) saleId hp']
      exact ih sale h

/-- C4: for every loaded sale, `cancelSale` returns the sale with status
`CANCELLED` unconditionally and stores it; it leaves every product's stock
unchanged when the prior status was not `COMPLETED`, and when it was
`COMPLETED` it increments, for every product id, the resolved product's
stock by the total quantity of the sale's items referencing it (ids with no
product row are silently skipped: their lookup stays `none`). -/
theorem cancelSale_restores_stock_iff_completed (db : DB) (saleId : Nat) (sale : Sale)
    (hfind : findSale db saleId = some sale) :
    (cancelSale db saleId).1 = Except.ok { sale with status := SaleStatus.CANCELLED }
    ∧ findSale (cancelSale db saleId).2 saleId =
        some { sale with status := SaleStatus.CANCELLED }
    ∧ (sale.status ≠ SaleStatus.COMPLETED →
        (cancelSale db saleId).2.products = db.products)
    ∧ (sale.status = SaleStatus.COMPLETED →
        ∀ pid, stockOf ((cancelSale db saleId).2.products) pid =
          (stockOf db.products pid).map (fun s => s + totalQty sale.items pid)) := by
  have hfind' : List.find? (fun s => s.id == saleId) db.sales = some sale := hfind
  have hsid : (sale.id == saleId) = true := by
    have h2 := List.find?_some hfind'
    simpa using h2
  refine ⟨?_, ?_, ?_, ?_⟩
  · simp [cancelSale, hfind]
  · simp only [cancelSale, hfind]
    exact find?_setSale db.sales saleId _ hsid sale hfind
  · intro hst
    simp [cancelSale, hfind, hst]
  · intro hst pid
    simp only [cancelSale, hfind, hst, if_true]
    exact stockOf_restoreLoop sale.items db.products pid

/-- A completed sale of 3 units of product 2, in a store where product 2
currently has stock 7. -/
def completedSale : Sale :=
  { id := 3
    items := [{ productId := 2, productName := "B", quantity := 3, unitPrice := 7,
                originalPrice := 7, total := 21 }]
    totalValue := 21, status := SaleStatus.COMPLETED, discount := 0
    cashierId := some "c", cashierName := some "C", finishedAt := some "t" }

def dbCompleted : DB :=
  { sales := [completedSale]
    products := [{ id := 2, name := "B", price := 7, stock := 7 }] }

theorem cancelSale_restores_stock_iff_completed_witness :
    findSale dbCompleted 3 = some completedSale ∧
    ((cancelSale dbCompleted 3).1 =
        Except.ok { completedSale with status := SaleStatus.CANCELLED }
    ∧ findSale (cancelSale dbCompleted 3).2 3 =
        some { completedSale with status := SaleStatus.CANCELLED }
    ∧ (completedSale.status ≠ SaleStatus.COMPLETED →
        (cancelSale dbCompleted 3).2.products = dbCompleted.products)
    ∧ (completedSale.status = SaleStatus.COMPLETED →
        ∀ pid, stockOf ((cancelSale dbCompleted 3).2.products) pid =
          (stockOf dbCompleted.products pid).map
            (fun s => s + totalQty completedSale.items pid))) :=
  ⟨by decide, cancelSale_restores_stock_iff_completed dbCompleted 3 completedSale (by decide)⟩

/-! ### POS cart state and handlers (sales view module) -/

/-- Payment breakdown keyed by method, from `types.ts` (`PaymentDetails`). -/
structure PaymentDetails where
  cash : ℚ
  debit : ℚ
  credit : ℚ
  pix : ℚ
  boleto : ℚ
  creditStore : ℚ
  ticket : ℚ
  transfer : ℚ
  cheque : ℚ
deriving DecidableEq, Repr

/-- The payment-method keys of `PaymentDetails`. -/
inductive PayMethod where
  | cash
  | debit
  | credit
  | pix
  | boleto
  | creditStore
  | ticket
  | transfer
  | cheque
deriving DecidableEq, Repr

def PaymentDetails.amount (p : PaymentDetails) : PayMethod → ℚ
  | PayMethod.cash => p.cash
  | PayMethod.debit => p.debit
  | PayMethod.credit => p.credit
  | PayMethod.pix => p.pix
  | PayMethod.boleto => p.boleto
  | PayMethod.creditStore => p.creditStore
  | PayMethod.ticket => p.ticket
  | PayMethod.transfer => p.transfer
  | PayMethod.cheque => p.cheque

def PaymentDetails.setAmount (p : PaymentDetails) : PayMethod → ℚ → PaymentDetails
  | PayMethod.cash, v => { p with cash := v }
  | PayMethod.debit, v => { p with debit := v }
  | PayMethod.credit, v => { p with credit := v }
  | PayMethod.pix, v => { p with pix := v }
  | PayMethod.boleto, v => { p with boleto := v }
  | PayMethod.creditStore, v => { p with creditStore := v }
  | PayMethod.ticket, v => { p with ticket := v }
  | PayMethod.transfer, v => { p with transfer := v }
  | PayMethod.cheque, v => { p with cheque := v }

/-- `Object.values(payments).reduce((acc, val) => acc + val, 0)`. -/
def PaymentDetails.sumAmounts (p : PaymentDetails) : ℚ :=
  p.cash + p.debit + p.credit + p.pix + p.boleto + p.creditStore + p.ticket +
    p.transfer + p.cheque

/-- The POS state the handlers read: cart items and monetary adjustments. -/
structure CartState where
  cart : List SaleItem
  posDiscount : ℚ
  posFreight : ℚ
  posOther : ℚ
  payments : PaymentDetails
deriving DecidableEq, Repr

/-- `const subTotal = cart.reduce((acc, item) => acc + item.total, 0)`. -/
def subTotal (st : CartState) : ℚ := itemsSubtotal st.cart

/-- `const totalGeneral = Math.max(0, subTotal - posDiscount + posFreight + posOther)`. -/
def totalGeneral (st : CartState) : ℚ :=
  max 0 (subTotal st - st.posDiscount + st.posFreight + st.posOther)

/-- `const totalPaid = Object.values(payments).reduce(...)`. -/
def totalPaid (st : CartState) : ℚ := st.payments.sumAmounts

/-- The failure notices the POS handlers surface (as toasts) before
aborting without writing a record. -/
inductive PosError where
  | EmptyCart
  | NoSeller
  | NoPayment
  | PaymentMismatch (diff : ℚ)
  | NoSession
  | ExceedsRemaining (roomLeft : ℚ)
  | AuthorizationRequired (pct : ℚ)
deriving DecidableEq, Repr

/-- The decision chain of `handleSubmitSale`: empty cart, then missing
seller, then (non-budget only, for a positive grand total) the zero-payment
check and the 0.05-tolerance mismatch check reporting
`totalGeneral - totalPaid`, then the session check; on success a record is
written with status `BUDGET` or `PENDING`. -/
def handleSubmitSale (st : CartState) (asBudget sellerSelected hasUser : Bool) :
    Except PosError SaleStatus :=
  if st.cart = [] then Except.error PosError.EmptyCart
  else if sellerSelected = false then Except.error PosError.NoSeller
  else if asBudget = false ∧ 0 < totalGeneral st ∧ totalPaid st = 0 then
    Except.error PosError.NoPayment
  else if asBudget = false ∧ 0 < totalGeneral st ∧
      0.05 < |totalPaid st - totalGeneral st| then
    Except.error (PosError.PaymentMismatch (totalGeneral st - totalPaid st))
  else if hasUser = false then Except.error PosError.NoSession
  else Except.ok (if asBudget then SaleStatus.BUDGET else SaleStatus.PENDING)

/-- The decision chain of `handleCashierFinalize`: the code returns
silently when no sale is open or no user is logged in (modelled as
`NoSession`; nothing is written either way); otherwise it rejects when
`|totalPaid - totalGeneral| > 0.05` and else proceeds to write and complete
the sale. -/
def handleCashierFinalize (st : CartState) (hasSale hasUser : Bool) :
    Except PosError Unit :=
  if hasSale = false ∨ hasUser = false then Except.error PosError.NoSession
  else if 0.05 < |totalPaid st - totalGeneral st| then
    Except.error (PosError.PaymentMismatch (totalGeneral st - totalPaid st))
  else Except.ok ()

/-- `handlePaymentChange`: reject a value exceeding
`roomLeft + 0.001` where `roomLeft = totalGeneral - totalPaidByOthers`,
leaving the payment state unchanged; otherwise set the method's amount. -/
def handlePaymentChange (st : CartState) (key : PayMethod) (value : ℚ) :
    Except PosError CartState :=
  if (totalGeneral st - (totalPaid st - st.payments.amount key)) + 0.001 < value then
    Except.error (PosError.ExceedsRemaining
      (totalGeneral st - (totalPaid st - st.payments.amount key)))
  else Except.ok { st with payments := st.payments.setAmount key value }

/-- `cart.reduce((acc, item) => acc + (item.quantity * (item.originalPrice ||
item.unitPrice)), 0)` — a falsy (zero) `originalPrice` falls back to
`unitPrice`. -/
def totalOriginalValue (cart : List SaleItem) : ℚ :=
  cart.foldl (fun acc item =>
    acc + item.quantity *
      (if item.originalPrice = 0 then item.unitPrice else item.originalPrice)) 0

/-- The effective total discount percentage the discount modal computes:
`(discountFromItems + globalDiscount) / totalOriginalValue * 100`, and `0`
when `totalOriginalValue` is not positive. -/
def totalDiscountPct (cart : List SaleItem) (globalDiscount : ℚ) : ℚ :=
  if 0 < totalOriginalValue cart then
    ((totalOriginalValue cart - itemsSubtotal cart) + globalDiscount) /
      totalOriginalValue cart * 100
  else 0

/-- `confirmDiscount`: reject with the authorization notice when the final
percentage exceeds 6 and the token is shorter than 3 characters; otherwise
apply `tempDiscountValue` as the new `posDiscount`. -/
def confirmDiscount (cart : List SaleItem) (tempDiscountValue : ℚ) (token : String) :
    Except PosError ℚ :=
  if 6 < totalDiscountPct cart tempDiscountValue ∧ token.length < 3 then
    Except.error (PosError.AuthorizationRequired (totalDiscountPct cart tempDiscountValue))
  else Except.ok tempDiscountValue

/-- The two editable fields of the discount modal. -/
structure DiscountModalState where
  tempDiscountValue : ℚ
  tempDiscountPercent : ℚ
deriving DecidableEq, Repr

/-- `handleDiscountValueChange(val)`: set the amount, recompute the
percentage. -/
def handleDiscountValueChange (cart : List SaleItem) (val : ℚ) : DiscountModalState :=
  { tempDiscountValue := val
    tempDiscountPercent :=
      if 0 < totalOriginalValue cart then
        ((totalOriginalValue cart - itemsSubtotal cart) + val) /
          totalOriginalValue cart * 100
      else 0 }

/-- `handleDiscountPercentChange(pct)`: keep the entered percentage, set the
amount to `max(0, targetTotalDiscount - discountFromItems)`. -/
def handleDiscountPercentChange (cart : List SaleItem) (pct : ℚ) : DiscountModalState :=
  { tempDiscountValue :=
      max 0 (totalOriginalValue cart * pct / 100 -
        (totalOriginalValue cart - itemsSubtotal cart))
    tempDiscountPercent := pct }

/-- `handleDiscountTotalChange(totalComDesconto)`: set the amount to
`max(0, subTotal - totalComDesconto)`, recompute the percentage. -/
def handleDiscountTotalChange (cart : List SaleItem) (totalComDesconto : ℚ) :
    DiscountModalState :=
  { tempDiscountValue := max 0 (itemsSubtotal cart - totalComDesconto)
    tempDiscountPercent :=
      if 0 < totalOriginalValue cart then
        ((totalOriginalValue cart - itemsSubtotal cart) +
          max 0 (itemsSubtotal cart - totalComDesconto)) /
          totalOriginalValue cart * 100
      else 0 }

/-- `saveEditItem`: no-op when the submitted quantity is falsy; otherwise
revert a falsy price to `originalPrice || unitPrice || 0`, clamp below
`original * 0.94` to that floor, and recompute `total = quantity * price`. -/
def saveEditItem (item : SaleItem) (newQuantity newUnitPrice : ℚ) : Option SaleItem :=
  if newQuantity = 0 then none
  else
    let original := if item.originalPrice = 0 then newUnitPrice else item.originalPrice
    let price1 := if newUnitPrice = 0 then original else newUnitPrice
    let minAllowedPrice := original * 0.94
    let finalPrice := if price1 < minAllowedPrice then minAllowedPrice else price1
    some { item with
      quantity := newQuantity
      unitPrice := finalPrice
      total := newQuantity * finalPrice }

/-! ### C5: payment gate on the two completion paths -/

/-- The payment condition C5 claims both completion paths enforce. -/
def paymentGateOk (grandTotal paid : ℚ) : Prop :=
  grandTotal = 0 ∨ (0 < paid ∧ |paid - grandTotal| ≤ 0.05)

def zeroPayments : PaymentDetails :=
  { cash := 0, debit := 0, credit := 0, pix := 0, boleto := 0, creditStore := 0,
    ticket := 0, transfer := 0, cheque := 0 }

/-- A cart worth 0.03 with nothing paid. -/
def stSmall : CartState :=
  { cart := [{ productId := 1, productName := "A", quantity := 1, unitPrice := 0.03,
               originalPrice := 0.03, total := 0.03 }]
    posDiscount := 0, posFreight := 0, posOther := 0, payments := zeroPayments }

/-- C5 counterexample: with `grandTotal = 0.03` and `totalPaid = 0`, the
cashier finalize path proceeds (the code checks only
`|totalPaid - totalGeneral| ≤ 0.05`), although the claimed condition
(`grandTotal == 0`, or `totalPaid > 0` within tolerance) fails — so the
claim is false of `handleCashierFinalize`. -/
theorem cashier_finalize_gate_counterexample :
    handleCashierFinalize stSmall true true = Except.ok () ∧
    ¬ paymentGateOk (totalGeneral stSmall) (totalPaid stSmall) := by
  have hg : totalGeneral stSmall = 0.03 := by
    norm_num [totalGeneral, subTotal, itemsSubtotal, stSmall, max_def]
  have hp : totalPaid stSmall = 0 := by
    norm_num [totalPaid, PaymentDetails.sumAmounts, stSmall, zeroPayments]
  have habs : |totalPaid stSmall - totalGeneral stSmall| = 0.03 := by
    rw [hg, hp, abs_sub_comm, abs_of_nonneg] <;> norm_num
  constructor
  · rw [handleCashierFinalize]
    simp only [habs]
    norm_num
  · intro hgate
    have hgate' : totalGeneral stSmall = 0 ∨
        (0 < totalPaid stSmall ∧ |totalPaid stSmall - totalGeneral stSmall| ≤ 0.05) :=
      hgate
    rcases hgate' with h0 | ⟨hpos, _⟩
    · rw [hg] at h0
      norm_num at h0
    · rw [hp] at hpos
      exact lt_irrefl 0 hpos

/-- C5 amended: with a non-empty cart and non-negative payment amounts, the
non-budget submit path writes a record exactly under the claimed condition
`grandTotal = 0 ∨ (totalPaid > 0 ∧ |totalPaid − grandTotal| ≤ 0.05)`
(failing with the no-payment notice or a `PaymentMismatch` carrying
`grandTotal − totalPaid` otherwise); the cashier finalize path, however,
enforces only `|totalPaid − grandTotal| ≤ 0.05`, with no `grandTotal = 0`
exemption and no `totalPaid > 0` requirement. -/
theorem payment_gate_amended (st : CartState)
    (hcart : st.cart ≠ [])
    (hpay : ∀ k : PayMethod, 0 ≤ st.payments.amount k) :
    ((∃ r, handleSubmitSale st false true true = Except.ok r) ↔
      paymentGateOk (totalGeneral st) (totalPaid st))
    ∧ ((handleCashierFinalize st true true = Except.ok ()) ↔
      |totalPaid st - totalGeneral st| ≤ 0.05) := by
  have hg0 : 0 ≤ totalGeneral st := le_max_left 0 _
  have hpaid0 : 0 ≤ totalPaid st := by
    have c1 := hpay PayMethod.cash
    have c2 := hpay PayMethod.debit
    have c3 := hpay PayMethod.credit
    have c4 := hpay PayMethod.pix
    have c5 := hpay PayMethod.boleto
    have c6 := hpay PayMethod.creditStore
    have c7 := hpay PayMethod.ticket
    have c8 := hpay PayMethod.transfer
    have c9 := hpay PayMethod.cheque
    simp only [PaymentDetails.amount] at c1 c2 c3 c4 c5 c6 c7 c8 c9
    rw [totalPaid, PaymentDetails.sumAmounts]
    linarith
  constructor
  · by_cases hg : 0 < totalGeneral st
    · by_cases hp0 : totalPaid st = 0
      · have heq : handleSubmitSale st false true true = Except.error PosError.NoPayment := by
          rw [handleSubmitSale, if_neg hcart, if_neg (by simp : ¬ (true = false)),
              if_pos ⟨rfl, hg, hp0⟩]
        rw [heq]
        constructor
        · rintro ⟨r, hr⟩
          cases hr
        · intro hgate
          have hgate' : totalGeneral st = 0 ∨
              (0 < totalPaid st ∧ |totalPaid st - totalGeneral st| ≤ 0.05) := hgate
          rcases hgate' with h0 | ⟨hpos, _⟩
          · exact absurd h0 (ne_of_gt hg)
          · rw [hp0] at hpos
            exact absurd hpos (lt_irrefl 0)
      · by_cases habs : 0.05 < |totalPaid st - totalGeneral st|
        · have heq : handleSubmitSale st false true true =
              Except.error (PosError.PaymentMismatch (totalGeneral st - totalPaid st)) := by
            rw [handleSubmitSale, if_neg hcart, if_neg (by simp : ¬ (true = false)),
                if_neg (fun h => hp0 h.2.2), if_pos ⟨rfl, hg, habs⟩]
          rw [heq]
          constructor
          · rintro ⟨r, hr⟩
            cases hr
          · intro hgate
            have hgate' : totalGeneral st = 0 ∨
                (0 < totalPaid st ∧ |totalPaid st - totalGeneral st| ≤ 0.05) := hgate
            rcases hgate' with h0 | ⟨_, hle⟩
            · exact absurd h0 (ne_of_gt hg)
            · exact absurd habs (not_lt.mpr hle)
        · have heq : handleSubmitSale st false true true = Except.ok SaleStatus.PENDING := by
            rw [handleSubmitSale, if_neg hcart, if_neg (by simp : ¬ (true = false)),
                if_neg (fun h => hp0 h.2.2), if_neg (fun h => habs h.2.2),
                if_neg (by simp : ¬ (true = false))]
            rfl
          rw [heq]
          constructor
          · intro _
            exact Or.inr ⟨lt_of_le_of_ne hpaid0 (Ne.symm hp0), not_lt.mp habs⟩
          · intro _
            exact ⟨SaleStatus.PENDING, rfl⟩
    · have hgz : totalGeneral st = 0 := le_antisymm (not_lt.mp hg) hg0
      have heq : handleSubmitSale st false true true = Except.ok SaleStatus.PENDING := by
        rw [handleSubmitSale, if_neg hcart, if_neg (by simp : ¬ (true = false)),
            if_neg (fun h => hg h.2.1), if_neg (fun h => hg h.2.1),
            if_neg (by simp : ¬ (true = false))]
        rfl
      rw [heq]
      constructor
      · intro _
        exact Or.inl hgz
      · intro _
        exact ⟨SaleStatus.PENDING, rfl⟩
  · rw [handleCashierFinalize, if_neg (by simp : ¬ (true = false ∨ true = false))]
    by_cases habs : 0.05 < |totalPaid st - totalGeneral st|
    · rw [if_pos habs]
      constructor
      · intro h
        cases h
      · intro hle
        exact absurd habs (not_lt.mpr hle)
    · rw [if_neg habs]
      exact ⟨fun _ => not_lt.mp habs, fun _ => rfl⟩

/-- A cart worth 20 fully paid in cash. -/
def stPaid : CartState :=
  { cart := [{ productId := 1, productName := "A", quantity := 2, unitPrice := 10,
               originalPrice := 10, total := 20 }]
    posDiscount := 0, posFreight := 0, posOther := 0
    payments := { zeroPayments with cash := 20 } }

theorem payment_gate_amended_witness :
    (stPaid.cart ≠ [] ∧ ∀ k : PayMethod, 0 ≤ stPaid.payments.amount k) ∧
    (((∃ r, handleSubmitSale stPaid false true true = Except.ok r) ↔
      paymentGateOk (totalGeneral stPaid) (totalPaid stPaid))
    ∧ ((handleCashierFinalize stPaid true true = Except.ok ()) ↔
      |totalPaid stPaid - totalGeneral stPaid| ≤ 0.05)) :=
  ⟨⟨by decide,
    by intro k; cases k <;> norm_num [PaymentDetails.amount, stPaid, zeroPayments]⟩,
   payment_gate_amended stPaid (by decide)
     (by intro k; cases k <;> norm_num [PaymentDetails.amount, stPaid, zeroPayments])⟩

/-! ### C6: payment-method allocation boundary -/

/-- C6: `handlePaymentChange` rejects with `ExceedsRemaining` exactly when
the value exceeds `grandTotal - (sum of the other methods) + 0.001`, leaving
the state unchanged, and otherwise sets that method's amount; the sum of all
methods after an accepted set is `others + value`, so a set pushing the sum
beyond `grandTotal + 0.001` is rejected while one reaching exactly
`grandTotal` succeeds. -/
theorem handlePaymentChange_boundary (st : CartState) (k : PayMethod) (v : ℚ) :
    ((totalGeneral st - (totalPaid st - st.payments.amount k)) + 0.001 < v →
      handlePaymentChange st k v =
        Except.error (PosError.ExceedsRemaining
          (totalGeneral st - (totalPaid st - st.payments.amount k))))
    ∧ (v ≤ (totalGeneral st - (totalPaid st - st.payments.amount k)) + 0.001 →
      handlePaymentChange st k v =
        Except.ok { st with payments := st.payments.setAmount k v })
    ∧ (totalPaid { st with payments := st.payments.setAmount k v } =
        (totalPaid st - st.payments.amount k) + v)
    ∧ (totalGeneral st + 0.001 < (totalPaid st - st.payments.amount k) + v →
      handlePaymentChange st k v =
        Except.error (PosError.ExceedsRemaining
          (totalGeneral st - (totalPaid st - st.payments.amount k))))
    ∧ ((totalPaid st - st.payments.amount k) + v = totalGeneral st →
      handlePaymentChange st k v =
        Except.ok { st with payments := st.payments.setAmount k v }) := by
  refine ⟨?_, ?_, ?_, ?_, ?_⟩
  · intro h
    rw [handlePaymentChange, if_pos h]
  · intro h
    rw [handlePaymentChange, if_neg (not_lt.mpr h)]
  · cases k <;>
      simp [totalPaid, PaymentDetails.sumAmounts, PaymentDetails.setAmount,
            PaymentDetails.amount] <;>
      ring
  · intro h
    have h' : (totalGeneral st - (totalPaid st - st.payments.amount k)) + 0.001 < v := by
      linarith
    rw [handlePaymentChange, if_pos h']
  · intro h
    have h' : v ≤ (totalGeneral st - (totalPaid st - st.payments.amount k)) + 0.001 := by
      linarith
    rw [handlePaymentChange, if_neg (not_lt.mpr h')]

theorem handlePaymentChange_boundary_witness :
    handlePaymentChange stPaid PayMethod.cash 20 =
      Except.ok { stPaid with payments := stPaid.payments.setAmount PayMethod.cash 20 } ∧
    handlePaymentChange stPaid PayMethod.cash 25 =
      Except.error (PosError.ExceedsRemaining
        (totalGeneral stPaid - (totalPaid stPaid - stPaid.payments.amount PayMethod.cash))) :=
  ⟨(handlePaymentChange_boundary stPaid PayMethod.cash 20).2.2.2.2
     (by norm_num [totalPaid, totalGeneral, subTotal, itemsSubtotal,
                   PaymentDetails.sumAmounts, PaymentDetails.amount, stPaid,
                   zeroPayments, max_def]),
   (handlePaymentChange_boundary stPaid PayMethod.cash 25).2.2.2.1
     (by norm_num [totalPaid, totalGeneral, subTotal, itemsSubtotal,
                   PaymentDetails.sumAmounts, PaymentDetails.amount, stPaid,
                   zeroPayments, max_def])⟩

/-! ### C7: discount authorization threshold and token length rule -/

/-- C7: confirming a discount whose total percentage exceeds 6 fails with
the authorization notice when the token has fewer than 3 characters and
succeeds with 3 or more; at or below 6% no token is required; and the
outcome depends on the token only through its length. -/
theorem confirmDiscount_token_rule (cart : List SaleItem) (d : ℚ) (token : String) :
    (6 < totalDiscountPct cart d → token.length < 3 →
      confirmDiscount cart d token =
        Except.error (PosError.AuthorizationRequired (totalDiscountPct cart d)))
    ∧ (6 < totalDiscountPct cart d → 3 ≤ token.length →
      confirmDiscount cart d token = Except.ok d)
    ∧ (totalDiscountPct cart d ≤ 6 → confirmDiscount cart d token = Except.ok d)
    ∧ (∀ t2 : String, token.length = t2.length →
      confirmDiscount cart d token = confirmDiscount cart d t2) := by
  refine ⟨?_, ?_, ?_, ?_⟩
  · intro h6 hlen
    rw [confirmDiscount, if_pos ⟨h6, hlen⟩]
  · intro h6 hlen
    rw [confirmDiscount, if_neg (fun hc => (Nat.not_lt.mpr hlen) hc.2)]
  · intro h6
    rw [confirmDiscount, if_neg (fun hc => (not_lt.mpr h6) hc.1)]
  · intro t2 hlen
    rw [confirmDiscount, confirmDiscount, hlen]

/-- One marked-down line: 2 × (catalog 10, charged 9); original value 20,
subtotal 18, so the item markdowns alone are a 10% discount. -/
def cartMarkdown : List SaleItem :=
  [{ productId := 1, productName := "A", quantity := 2, unitPrice := 9,
     originalPrice := 10, total := 18 }]

theorem confirmDiscount_token_rule_witness :
    confirmDiscount cartMarkdown 0 "ab" =
      Except.error (PosError.AuthorizationRequired (totalDiscountPct cartMarkdown 0)) ∧
    confirmDiscount cartMarkdown 0 "abcd" = Except.ok 0 :=
  ⟨(confirmDiscount_token_rule cartMarkdown 0 "ab").1
     (by norm_num [totalDiscountPct, totalOriginalValue, itemsSubtotal, cartMarkdown])
     (by decide),
   (confirmDiscount_token_rule cartMarkdown 0 "abcd").2.1
     (by norm_num [totalDiscountPct, totalOriginalValue, itemsSubtotal, cartMarkdown])
     (by decide)⟩

/-! ### C8: item edit price floor and revert -/

/-- C8: for an item edit with a truthy quantity and a positive original
price, the edit always succeeds (the adjustments are non-fatal notices): a
zero/falsy submitted price reverts to `originalPrice`, a price below
`originalPrice * 0.94` is clamped to exactly that floor, any other price is
kept, and the total is recomputed as quantity times the final unit price. -/
theorem saveEditItem_floor_and_revert (item : SaleItem) (q p : ℚ) (hq : q ≠ 0)
    (horig : 0 < item.originalPrice) :
    ∃ it', saveEditItem item q p = some it' ∧
      it'.quantity = q ∧
      it'.total = it'.quantity * it'.unitPrice ∧
      (p = 0 → it'.unitPrice = item.originalPrice) ∧
      (p ≠ 0 → p < item.originalPrice * 0.94 →
        it'.unitPrice = item.originalPrice * 0.94) ∧
      (p ≠ 0 → item.originalPrice * 0.94 ≤ p → it'.unitPrice = p) := by
  have ho : item.originalPrice ≠ 0 := ne_of_gt horig
  simp only [saveEditItem, if_neg hq, if_neg ho]
  by_cases hp0 : p = 0
  · simp only [if_pos hp0]
    have hnc : ¬ (item.originalPrice < item.originalPrice * 0.94) := by nlinarith
    simp only [if_neg hnc]
    exact ⟨_, rfl, rfl, rfl, fun _ => rfl, fun hp _ => absurd hp0 hp,
           fun hp _ => absurd hp0 hp⟩
  · simp only [if_neg hp0]
    by_cases hlow : p < item.originalPrice * 0.94
    · simp only [if_pos hlow]
      exact ⟨_, rfl, rfl, rfl, fun h0 => absurd h0 hp0, fun _ _ => rfl,
             fun _ hge => absurd hlow (not_lt.mpr hge)⟩
    · simp only [if_neg hlow]
      exact ⟨_, rfl, rfl, rfl, fun h0 => absurd h0 hp0,
             fun _ hlt => absurd hlt hlow, fun _ _ => rfl⟩

def itemEdit : SaleItem :=
  { productId := 1, productName := "A", quantity := 1, unitPrice := 10,
    originalPrice := 10, total := 10 }

theorem saveEditItem_floor_and_revert_witness :
    ((2 : ℚ) ≠ 0 ∧ (0 : ℚ) < itemEdit.originalPrice) ∧
    (∃ it', saveEditItem itemEdit 2 5 = some it' ∧
      it'.quantity = 2 ∧
      it'.total = it'.quantity * it'.unitPrice ∧
      ((5 : ℚ) = 0 → it'.unitPrice = itemEdit.originalPrice) ∧
      ((5 : ℚ) ≠ 0 → (5 : ℚ) < itemEdit.originalPrice * 0.94 →
        it'.unitPrice = itemEdit.originalPrice * 0.94) ∧
      ((5 : ℚ) ≠ 0 → itemEdit.originalPrice * 0.94 ≤ 5 → it'.unitPrice = 5)) :=
  ⟨⟨by norm_num, by norm_num [itemEdit]⟩,
   saveEditItem_floor_and_revert itemEdit 2 5 (by norm_num) (by norm_num [itemEdit])⟩

/-! ### C9: consistency of the three discount input modes -/

/-- The numeric relation C9 claims the modal keeps: the stored percentage
equals the effective percentage derived from the stored amount. -/
def discountConsistent (cart : List SaleItem) (st : DiscountModalState) : Prop :=
  st.tempDiscountPercent = totalDiscountPct cart st.tempDiscountValue

/-- One line marked down from 100 to 90 (item markdowns already 10%). -/
def cartMarkedTen : List SaleItem :=
  [{ productId := 1, productName := "A", quantity := 1, unitPrice := 90,
     originalPrice := 100, total := 90 }]

/-- C9 counterexample: with item markdowns already at 10%, entering a
percentage of 5 clamps the recomputed amount at 0 but keeps the entered
percentage, so the stored pair (amount 0, percent 5) violates the relation
(the amount 0 corresponds to 10%). -/
theorem discount_percent_mode_counterexample :
    ¬ discountConsistent cartMarkedTen (handleDiscountPercentChange cartMarkedTen 5) := by
  norm_num [discountConsistent, handleDiscountPercentChange, totalDiscountPct,
            totalOriginalValue, itemsSubtotal, cartMarkedTen, max_def]

/-- C9 amended: editing the discount amount or the desired post-discount
total always re-establishes the relation between stored amount and stored
percentage; editing the percentage does so only when the original value is
positive and the implied target total discount is at least the discount
already baked into item edits (otherwise the amount is clamped at 0 and the
stored percentage understates the effective one). -/
theorem discount_modes_consistency_amended (cart : List SaleItem) (v pct total : ℚ) :
    discountConsistent cart (handleDiscountValueChange cart v)
    ∧ discountConsistent cart (handleDiscountTotalChange cart total)
    ∧ (0 < totalOriginalValue cart →
        totalOriginalValue cart - itemsSubtotal cart ≤
          totalOriginalValue cart * pct / 100 →
        discountConsistent cart (handleDiscountPercentChange cart pct)) := by
  refine ⟨rfl, rfl, ?_⟩
  intro htov hle
  have h0 : totalOriginalValue cart ≠ 0 := ne_of_gt htov
  show pct = totalDiscountPct cart
    (max 0 (totalOriginalValue cart * pct / 100 -
      (totalOriginalValue cart - itemsSubtotal cart)))
  rw [max_eq_right (by linarith), totalDiscountPct, if_pos htov]
  field_simp
  ring

theorem discount_modes_consistency_amended_witness :
    (0 < totalOriginalValue cartMarkedTen ∧
      totalOriginalValue cartMarkedTen - itemsSubtotal cartMarkedTen ≤
        totalOriginalValue cartMarkedTen * 20 / 100) ∧
    discountConsistent cartMarkedTen (handleDiscountPercentChange cartMarkedTen 20) :=
  ⟨⟨by norm_num [totalOriginalValue, itemsSubtotal, cartMarkedTen],
    by norm_num [totalOriginalValue, itemsSubtotal, cartMarkedTen]⟩,
   (discount_modes_consistency_amended cartMarkedTen 0 20 0).2.2
     (by norm_num [totalOriginalValue, itemsSubtotal, cartMarkedTen])
     (by norm_num [totalOriginalValue, itemsSubtotal, cartMarkedTen])⟩

/-! ### C10: money parsing and formatting -/

/-- Character of a decimal digit (0–9). -/
def digitChar : ℕ → Char
  | 0 => '0'
  | 1 => '1'
  | 2 => '2'
  | 3 => '3'
  | 4 => '4'
  | 5 => '5'
  | 6 => '6'
  | 7 => '7'
  | 8 => '8'
  | _ => '9'

/-- `value.replace(/\D/g, "")` keeps exactly the decimal digit characters;
`parseInt(digits || "0")` reads them as a base-10 numeral, 0 when empty. -/
def parseDigits (s : String) : ℕ :=
  (s.data.filter Char.isDigit).foldl (fun acc c => 10 * acc + (c.toNat - 48)) 0

/-- `parseMoney` from the sales module: strip non-digits, read as an
integer, divide by 100. -/
def parseMoney (s : String) : ℚ := (parseDigits s : ℚ) / 100

/-- pt-BR thousands grouping over a little-endian character list: a `'.'`
is inserted before every digit whose index is a positive multiple of 3. -/
def groupRevAux : ℕ → List Char → List Char
  | _, [] => []
  | k, c :: rest =>
    (if k ≠ 0 ∧ k % 3 = 0 then ['.', c] else [c]) ++ groupRevAux (k + 1) rest

/-- Little-endian decimal digits of the integer (reais) part of the cents
amount `n`; `[0]` when the integer part is zero, as the locale renders a
leading zero. -/
def intPartDigits (n : ℕ) : List ℕ :=
  if n / 100 = 0 then [0] else Nat.digits 10 (n / 100)

/-- Modelled from the source's
`value.toLocaleString('pt-BR', { minimumFractionDigits: 2,
maximumFractionDigits: 2 })` at an exact non-negative whole-cents amount
`n / 100`: integer part with `'.'` thousands grouping, `','` decimal
separator, exactly two fraction digits. -/
def formatMoneyCents (n : ℕ) : String :=
  String.mk
    (((groupRevAux 0 ((intPartDigits n).map digitChar)).reverse)
      ++ [','] ++ [digitChar (n % 100 / 10), digitChar (n % 100 % 10)])

/-- `formatMoney` from the sales module, on the exact-cents values the
round-trip claim quantifies over. -/
def formatMoney (x : ℚ) : String := formatMoneyCents (x * 100).num.toNat

lemma digitChar_isDigit (d : ℕ) (h : d < 10) : (digitChar d).isDigit = true := by
  interval_cases d <;> rfl

lemma digitChar_toNat (d : ℕ) (h : d < 10) : (digitChar d).toNat - 48 = d := by
  interval_cases d <;> rfl

lemma filter_groupRevAux (l : List Char) (hl : ∀ c ∈ l, c.isDigit = true) :
    ∀ k, (groupRevAux k l).filter Char.isDigit = l := by
  induction l with
  | nil => intro k; rfl
  | cons c rest ih =>
    intro k
    have hc : c.isDigit = true := hl c (List.mem_cons_self c rest)
    have hrest : ∀ x ∈ rest, x.isDigit = true :=
      fun x hx => hl x (List.mem_cons_of_mem c hx)
    rw [groupRevAux]
    have hdot : ('.' : Char).isDigit = false := rfl
    by_cases hk : k ≠ 0 ∧ k % 3 = 0
    · rw [if_pos hk]
      simp only [List.cons_append, List.nil_append, List.filter_cons, hc, hdot,
        Bool.false_eq_true, if_false, eq_self_iff_true, if_true]
      rw [ih hrest (k + 1)]
    · rw [if_neg hk]
      simp only [List.cons_append, List.nil_append, List.filter_cons, hc,
        eq_self_iff_true, if_true]
      rw [ih hrest (k + 1)]

lemma foldl_map_digitChar (l : List ℕ) (hl : ∀ d ∈ l, d < 10) :
    ∀ a : ℕ, ((l.map digitChar).foldl (fun acc c => 10 * acc + (c.toNat - 48)) a) =
      l.foldl (fun acc d => 10 * acc + d) a := by
  induction l with
  | nil => intro a; rfl
  | cons d rest ih =>
    intro a
    have hd : d < 10 := hl d (List.mem_cons_self d rest)
    have hrest : ∀ x ∈ rest, x < 10 := fun x hx => hl x (List.mem_cons_of_mem d hx)
    simp only [List.map_cons, List.foldl_cons, digitChar_toNat d hd]
    exact ih hrest _

lemma foldl_horner_reverse (l : List ℕ) :
    ∀ a : ℕ, (l.reverse).foldl (fun acc d => 10 * acc + d) a =
      a * 10 ^ l.length + Nat.ofDigits 10 l := by
  induction l with
  | nil =>
    intro a
    simp [Nat.ofDigits]
  | cons d rest ih =>
    intro a
    rw [List.reverse_cons, List.foldl_append, ih a]
    simp only [List.foldl_cons, List.foldl_nil, Nat.ofDigits_cons, List.length_cons]
    ring

lemma foldl_ofDigits (l : List ℕ) :
    (l.reverse).foldl (fun acc d => 10 * acc + d) 0 = Nat.ofDigits 10 l := by
  rw [foldl_horner_reverse l 0]
  simp

lemma intPartDigits_lt (n : ℕ) : ∀ d ∈ intPartDigits n, d < 10 := by
  intro d hd
  rw [intPartDigits] at hd
  by_cases h : n / 100 = 0
  · rw [if_pos h] at hd
    simp at hd
    omega
  · rw [if_neg h] at hd
    exact Nat.digits_lt_base (by norm_num) hd

lemma intPartDigits_ofDigits (n : ℕ) :
    Nat.ofDigits 10 (intPartDigits n) = n / 100 := by
  rw [intPartDigits]
  by_cases h : n / 100 = 0
  · rw [if_pos h, h]
    rfl
  · rw [if_neg h]
    exact Nat.ofDigits_digits 10 (n / 100)

lemma parseDigits_formatMoneyCents (n : ℕ) : parseDigits (formatMoneyCents n) = n := by
  have hmap : ∀ c ∈ (intPartDigits n).map digitChar, c.isDigit = true := by
    intro c hc
    rcases List.mem_map.mp hc with ⟨d, hd, rfl⟩
    exact digitChar_isDigit d (intPartDigits_lt n d hd)
  have h10 : n % 100 / 10 < 10 := by omega
  have h1 : n % 100 % 10 < 10 := by omega
  have hfilter :
      ((formatMoneyCents n).data.filter Char.isDigit) =
        ((intPartDigits n).reverse ++ [n % 100 / 10, n % 100 % 10]).map digitChar := by
    show ((((groupRevAux 0 ((intPartDigits n).map digitChar)).reverse)
        ++ [','] ++ [digitChar (n % 100 / 10), digitChar (n % 100 % 10)]).filter
          Char.isDigit) = _
    rw [List.filter_append, List.filter_append, List.filter_reverse,
        filter_groupRevAux ((intPartDigits n).map digitChar) hmap 0]
    have hsep : (([','] : List Char).filter Char.isDigit) = [] := rfl
    have hfrac : (([digitChar (n % 100 / 10), digitChar (n % 100 % 10)] :
        List Char).filter Char.isDigit) =
          [digitChar (n % 100 / 10), digitChar (n % 100 % 10)] := by
      simp [List.filter_cons, digitChar_isDigit _ h10, digitChar_isDigit _ h1]
    rw [hsep, hfrac, List.append_nil, List.map_append, List.map_reverse]
    simp only [List.map_cons, List.map_nil]
  rw [parseDigits, hfilter,
      foldl_map_digitChar ((intPartDigits n).reverse ++ [n % 100 / 10, n % 100 % 10])
        (by
          intro d hd
          rcases List.mem_append.mp hd with h | h
          · exact intPartDigits_lt n d (List.mem_reverse.mp h)
          · simp at h
            rcases h with h | h <;> omega) 0]
  rw [List.foldl_append, foldl_ofDigits, intPartDigits_ofDigits]
  simp only [List.foldl_cons, List.foldl_nil]
  omega

/-- C10: money round-trip and parser totality — for every amount that is an
exact whole number of cents `n / 100`, parsing the formatted pt-BR string
returns the same amount; for every input string the parse result is
non-negative; and a digit-free string parses to 0. -/
theorem money_roundtrip_nonneg :
    (∀ n : ℕ, parseMoney (formatMoney ((n : ℚ) / 100)) = (n : ℚ) / 100)
    ∧ (∀ s : String, 0 ≤ parseMoney s)
    ∧ (∀ s : String, s.data.filter Char.isDigit = [] → parseMoney s = 0) := by
  refine ⟨?_, ?_, ?_⟩
  · intro n
    have hx : ((n : ℚ) / 100 * 100) = (n : ℚ) := by field_simp
    have hnum : ((n : ℚ)).num.toNat = n := by simp
    rw [formatMoney, hx, hnum, parseMoney, parseDigits_formatMoneyCents]
  · intro s
    rw [parseMoney]
    positivity
  · intro s h
    rw [parseMoney, parseDigits, h]
    norm_num

theorem money_roundtrip_nonneg_witness :
    parseMoney (formatMoney (((123456 : ℕ) : ℚ) / 100)) = ((123456 : ℕ) : ℚ) / 100 ∧
    0 ≤ parseMoney "abc" ∧
    parseMoney "" = 0 :=
  ⟨money_roundtrip_nonneg.1 123456, money_roundtrip_nonneg.2.1 "abc",
   money_roundtrip_nonneg.2.2 "" rfl⟩

end ERP
